import Mathlib

/-!
# Verification of the Hydra DB access layer (helpers/hydra_db.py)

Shallow embedding of the connection-lifecycle, statement-building and
exploration logic of `hydra_db.py`:

* SQL statements built by the module are modelled as an AST (`Stmt`)
  together with the exact text rendering psycopg produces for them
  (`stmtText`): `sql.Identifier` quoting doubles the double-quote
  character and wraps the token in double quotes; value parameters
  (`%s`) are carried separately (`stmtParams`), never spliced into the
  text.
* Connection lifecycle is modelled by an event trace (`Event`): each
  operation records the connections it opens and closes and the
  statements it runs, for an arbitrary outcome of statement execution
  (`Exec`), including failing outcomes (a Python exception is an
  `Except.error`, and the `finally` block is reflected in the trace).
* A concrete relational store (`DB`) gives semantics to the three
  statement shapes the module issues (`runStmt`).

Python-faithful details kept: `str.split(".")` (`splitDot`, which never
returns an empty list), dict truthiness of fetched rows
(`dict(row) if row else None`), the `count_row["count"] if count_row
else 0` guard, and the `if not table_name` truthiness short-circuit of
`explore_resource`.
-/

namespace HydraDb

/-- A SQL value: enough to model the values this module stores and binds. -/
inductive Value
  | null
  | nat (n : Nat)
  | str (s : String)
  deriving DecidableEq, Repr

/-- A row as returned by psycopg's `dict_row` factory: a column-name to
value mapping (association list, first binding wins like a dict). -/
abbrev Row := List (String × Value)

/-- `row[key]` for a dict-like row: first matching column. -/
def rowGet (r : Row) (k : String) : Option Value :=
  (r.find? (fun p => p.1 = k)).map (fun p => p.2)

/-- Python `str.split(".")` on the character list: always returns at
least one (possibly empty) part; a separator at either end or doubled
yields empty parts. -/
def splitDot : List Char → List (List Char)
  | [] => [[]]
  | c :: cs =>
    if c = '.' then [] :: splitDot cs
    else
      match splitDot cs with
      | [] => [[c]]
      | p :: ps => (c :: p) :: ps

/-- `table_name.split(".")` from `explore_table`. -/
def tableParts (table_name : String) : List String :=
  (splitDot table_name.data).map (fun l => String.mk l)

/-- The statements `hydra_db.py` builds, as structured data: the
identifier parts and bound values as the code produced them. -/
inductive Stmt
  | countStmt (parts : List String)
  | selectStmt (parts : List String) (limit offset : Nat)
  | indexLookup (resource_id : String)
  deriving DecidableEq, Repr

/-- Failure kinds surfaced by the store or by the Python code itself. -/
inductive DbError
  | undefinedTable (parts : List String)
  | keyError (key : String)
  | connectionFailed
  | execFailed (msg : String)
  deriving DecidableEq, Repr

/-- `sql.Identifier` escaping: a double quote inside an identifier is
doubled. -/
def escapeIdentChars : List Char → List Char
  | [] => []
  | c :: cs =>
    if c = '"' then '"' :: '"' :: escapeIdentChars cs
    else c :: escapeIdentChars cs

/-- `sql.Identifier` rendering: the escaped token wrapped in double
quotes. -/
def quoteIdentChars (cs : List Char) : List Char :=
  '"' :: (escapeIdentChars cs ++ ['"'])

/-- `sql.SQL(".").join(identifiers)`: quoted parts joined with dots. -/
def chainChars : List (List Char) → List Char
  | [] => []
  | [p] => quoteIdentChars p
  | p :: ps => quoteIdentChars p ++ '.' :: chainChars ps

/-- Rendered identifier chain for a list of parts, as a string. -/
def renderChain (parts : List String) : String :=
  String.mk (chainChars (parts.map String.data))

/-- The exact SQL text the module hands to the driver for each
statement. `%s` placeholders stand for value parameters; identifier
parts appear only through `quoteIdentChars`. -/
def stmtText : Stmt → String
  | .countStmt parts =>
      String.mk ("SELECT COUNT(*) as count FROM ".data
        ++ chainChars (parts.map String.data))
  | .selectStmt parts _ _ =>
      String.mk ("SELECT * FROM ".data
        ++ chainChars (parts.map String.data)
        ++ " LIMIT %s OFFSET %s".data)
  | .indexLookup _ => "SELECT parsing_table FROM tables_index WHERE resource_id = %s"

/-- The values bound as parameters alongside the text: `limit`/`offset`
for the selection, `resource_id` for the index lookup, nothing for the
count. -/
def stmtParams : Stmt → List Value
  | .countStmt _ => []
  | .selectStmt _ limit offset => [Value.nat limit, Value.nat offset]
  | .indexLookup rid => [Value.str rid]

/-- Count of semicolons that sit outside double-quoted identifier
regions: the number of statement separators a SQL lexer would see. -/
def semiCount : Bool → List Char → Nat
  | _, [] => 0
  | inQ, c :: cs =>
    if c = '"' then semiCount (!inQ) cs
    else if c = ';' ∧ inQ = false then semiCount inQ cs + 1
    else semiCount inQ cs

/-- Statement-separator count of a rendered SQL text. -/
def topLevelSemicolons (s : String) : Nat :=
  semiCount false s.data

/-- Parse the inside of a quoted identifier (opening quote already
consumed): a doubled quote is a literal quote, a single quote closes.
Returns the identifier content and the rest of the input. -/
def parseIdentContent : List Char → Option (List Char × List Char)
  | [] => none
  | [c] => if c = '"' then some ([], []) else none
  | c :: c2 :: rest =>
    if c = '"' then
      if c2 = '"' then (parseIdentContent rest).map (fun p => ('"' :: p.1, p.2))
      else some ([], c2 :: rest)
    else (parseIdentContent (c2 :: rest)).map (fun p => (c :: p.1, p.2))

theorem parseIdentContent_length :
    ∀ (l : List Char) (p : List Char × List Char),
      parseIdentContent l = some p → p.2.length < l.length := by
  intro l
  induction l using parseIdentContent.induct with
  | case1 => intro p h; simp [parseIdentContent] at h
  | case2 =>
    intro p h
    simp only [parseIdentContent, if_pos rfl, Option.some.injEq] at h
    cases h
    simp
  | case3 c hc =>
    intro p h
    simp [parseIdentContent, hc] at h
  | case4 rest ih =>
    intro p h
    simp only [parseIdentContent, if_pos rfl] at h
    cases hr : parseIdentContent rest with
    | none => rw [hr] at h; simp at h
    | some q =>
      rw [hr] at h
      simp only [Option.map_some', Option.some.injEq] at h
      have := ih q hr
      cases h
      simp only [List.length_cons]
      omega
  | case5 c2 rest hc2 =>
    intro p h
    simp only [parseIdentContent, if_pos rfl, if_neg hc2, Option.some.injEq] at h
    cases h
    simp
  | case6 c c2 rest hc ih =>
    intro p h
    simp only [parseIdentContent, if_neg hc] at h
    cases hr : parseIdentContent (c2 :: rest) with
    | none => rw [hr] at h; simp at h
    | some q =>
      rw [hr] at h
      simp only [Option.map_some', Option.some.injEq] at h
      have := ih q hr
      cases h
      simp only [List.length_cons] at this ⊢
      omega

/-- Parse a dot-joined chain of quoted identifiers, requiring the whole
input to be consumed; fuel bounds the number of identifiers. -/
def parseChainFuel : Nat → List Char → Option (List (List Char))
  | 0, _ => none
  | _ + 1, [] => none
  | fuel + 1, c :: rest =>
    if c = '"' then
      match parseIdentContent rest with
      | none => none
      | some (ident, rest2) =>
        match rest2 with
        | [] => some [ident]
        | c2 :: rest3 =>
          if c2 = '.' then
            (parseChainFuel fuel rest3).map (fun ps => ident :: ps)
          else none
    else none

/-- Parse a dot-joined chain of quoted identifiers. Inverse of
`chainChars` on rendered chains. -/
def parseChain (l : List Char) : Option (List (List Char)) :=
  parseChainFuel l.length l

/-- Observable connection-lifecycle events of one operation: connections
opened and closed, statements executed, commits issued. Connections are
named by numeric ids. -/
inductive Event
  | openConn (cid : Nat)
  | closeConn (cid : Nat)
  | runStmtEv (cid : Nat) (s : Stmt)
  | commitEv (cid : Nat)
  deriving DecidableEq, Repr

/-- Outcome oracle for statement execution on a given connection: models
whatever the store does, including raising (an `Except.error`). -/
abbrev Exec := Nat → Stmt → Except DbError (List Row)

/-- `_ensure_connection`: reuse the supplied connection (owned = false)
or open a fresh one (owned = true), recording the open event. -/
def ensure_connection (connection : Option Nat) (freshId : Nat) :
    Nat × Bool × List Event :=
  match connection with
  | some c => (c, false, [])
  | none => (freshId, true, [Event.openConn freshId])

/-- The `finally: if owned: await conn.close()` block as trace events. -/
def closeEvents (owned : Bool) (c : Nat) : List Event :=
  if owned then [Event.closeConn c] else []

/-- `fetch`: run a query, return all rows. -/
def fetch (ex : Exec) (q : Stmt) (connection : Option Nat) (freshId : Nat) :
    Except DbError (List Row) × List Event :=
  let (c, owned, ev0) := ensure_connection connection freshId
  (ex c q, ev0 ++ [Event.runStmtEv c q] ++ closeEvents owned c)

/-- `fetchrow`: run a query, `fetchone`, then `dict(row) if row else
None` — a missing row and a zero-column (falsy) row both yield the
absent marker. -/
def fetchrow (ex : Exec) (q : Stmt) (connection : Option Nat) (freshId : Nat) :
    Except DbError (Option Row) × List Event :=
  let (c, owned, ev0) := ensure_connection connection freshId
  let res : Except DbError (Option Row) :=
    match ex c q with
    | .error e => .error e
    | .ok [] => .ok none
    | .ok (r :: _) => .ok (if r.isEmpty then none else some r)
  (res, ev0 ++ [Event.runStmtEv c q] ++ closeEvents owned c)

/-- `execute`: run a mutating statement, commit, return the status
string (modelled as an uninterpreted constant on success). -/
def execute (ex : Exec) (q : Stmt) (connection : Option Nat) (freshId : Nat) :
    Except DbError String × List Event :=
  let (c, owned, ev0) := ensure_connection connection freshId
  match ex c q with
  | .error e => (.error e, ev0 ++ [Event.runStmtEv c q] ++ closeEvents owned c)
  | .ok _ =>
      (.ok "",
       ev0 ++ [Event.runStmtEv c q, Event.commitEv c] ++ closeEvents owned c)

/-- `executemany`: run the statement over a batch (the batch is part of
the oracle's view of the statement), single commit at the end. -/
def executemany (ex : Exec) (q : Stmt) (connection : Option Nat) (freshId : Nat) :
    Except DbError Unit × List Event :=
  let (c, owned, ev0) := ensure_connection connection freshId
  match ex c q with
  | .error e => (.error e, ev0 ++ [Event.runStmtEv c q] ++ closeEvents owned c)
  | .ok _ =>
      (.ok (),
       ev0 ++ [Event.runStmtEv c q, Event.commitEv c] ++ closeEvents owned c)

/-- `get_table_name_for_resource`: parameterized lookup in
`tables_index`, then `row["parsing_table"] if row else None`. The index
schema stores strings, so a non-string value is a store-level type
failure. -/
def get_table_name_for_resource (ex : Exec) (resource_id : String)
    (connection : Option Nat) (freshId : Nat) :
    Except DbError (Option String) × List Event :=
  let (res, ev) := fetchrow ex (Stmt.indexLookup resource_id) connection freshId
  let res2 : Except DbError (Option String) :=
    match res with
    | .error e => .error e
    | .ok none => .ok none
    | .ok (some row) =>
      match rowGet row "parsing_table" with
      | some (Value.str t) => .ok (some t)
      | some _ => .error (.execFailed "parsing_table is not a string")
      | none => .error (.keyError "parsing_table")
  (res2, ev)

/-- The `{rows, count, limit, offset}` structure `explore_table`
returns. `count` is the raw value read from the count row. -/
structure ExploreResult where
  rows : List Row
  count : Value
  limit : Nat
  offset : Nat
  deriving DecidableEq, Repr

/-- `count_row["count"] if count_row else 0` on the fetched count rows:
no row or a falsy (empty) row gives 0; a non-empty row without the
`count` column is a KeyError. -/
def extractCount (countRows : List Row) : Except DbError Value :=
  match countRows with
  | [] => .ok (Value.nat 0)
  | r :: _ =>
    if r.isEmpty then .ok (Value.nat 0)
    else
      match rowGet r "count" with
      | some v => .ok v
      | none => .error (.keyError "count")

/-- `explore_table`: split the name on dots, build the count and select
statements over the quoted parts, run the count, extract the total, run
the bounded select, and assemble the result. A failure at any step
still produces the close event for an owned connection. -/
def explore_table (ex : Exec) (table_name : String) (limit offset : Nat)
    (connection : Option Nat) (freshId : Nat) :
    Except DbError ExploreResult × List Event :=
  let (c, owned, ev0) := ensure_connection connection freshId
  let parts := tableParts table_name
  match ex c (Stmt.countStmt parts) with
  | .error e =>
      (.error e,
       ev0 ++ [Event.runStmtEv c (Stmt.countStmt parts)] ++ closeEvents owned c)
  | .ok countRows =>
    match extractCount countRows with
    | .error e =>
        (.error e,
         ev0 ++ [Event.runStmtEv c (Stmt.countStmt parts)] ++ closeEvents owned c)
    | .ok total =>
      match ex c (Stmt.selectStmt parts limit offset) with
      | .error e =>
          (.error e,
           ev0 ++ [Event.runStmtEv c (Stmt.countStmt parts),
                   Event.runStmtEv c (Stmt.selectStmt parts limit offset)]
               ++ closeEvents owned c)
      | .ok rows =>
          (.ok { rows := rows, count := total, limit := limit, offset := offset },
           ev0 ++ [Event.runStmtEv c (Stmt.countStmt parts),
                   Event.runStmtEv c (Stmt.selectStmt parts limit offset)]
               ++ closeEvents owned c)

/-- The extended result of `explore_resource`. -/
structure ResourceResult where
  resource_id : String
  table_name : Option String
  rows : List Row
  count : Value
  limit : Nat
  offset : Nat
  deriving DecidableEq, Repr

/-- The zero-result shape returned when resolution fails. -/
def emptyResourceResult (resource_id : String) (limit offset : Nat) :
    ResourceResult :=
  { resource_id := resource_id, table_name := none, rows := [],
    count := Value.nat 0, limit := limit, offset := offset }

/-- `explore_resource`: resolve through the shared connection; on a
falsy table name (`if not table_name`: absent or empty string) return
the zero-result shape; otherwise delegate to `explore_table` on the same
connection and merge `resource_id` and `table_name` into its result. -/
def explore_resource (ex : Exec) (resource_id : String) (limit offset : Nat)
    (connection : Option Nat) (freshId : Nat) :
    Except DbError ResourceResult × List Event :=
  let (c, owned, ev0) := ensure_connection connection freshId
  let (tnRes, ev1) := get_table_name_for_resource ex resource_id (some c) freshId
  match tnRes with
  | .error e => (.error e, ev0 ++ ev1 ++ closeEvents owned c)
  | .ok none => (.ok (emptyResourceResult resource_id limit offset),
                 ev0 ++ ev1 ++ closeEvents owned c)
  | .ok (some t) =>
    if t = "" then
      (.ok (emptyResourceResult resource_id limit offset),
       ev0 ++ ev1 ++ closeEvents owned c)
    else
      match explore_table ex t limit offset (some c) freshId with
      | (.error e, ev2) => (.error e, ev0 ++ ev1 ++ ev2 ++ closeEvents owned c)
      | (.ok r, ev2) =>
          (.ok { resource_id := resource_id, table_name := some t,
                 rows := r.rows, count := r.count,
                 limit := r.limit, offset := r.offset },
           ev0 ++ ev1 ++ ev2 ++ closeEvents owned c)

/-- The analytic store: the `tables_index` rows (resource_id,
parsing_table) and the data tables, keyed by their dot-split qualified
name parts, each a row sequence in the store's result order. -/
structure DB where
  tables_index : List (String × String)
  tables : List (List String × List Row)

/-- Resolve a qualified name to a stored table. -/
def lookupTable (db : DB) (parts : List String) : Option (List Row) :=
  (db.tables.find? (fun p => p.1 = parts)).map (fun p => p.2)

/-- Semantics of the three statement shapes against a concrete store:
a count or select against a missing table is the UndefinedTable error;
the index lookup returns one single-column row per matching index
record, in order. -/
def runStmt (db : DB) : Stmt → Except DbError (List Row)
  | .countStmt parts =>
    match lookupTable db parts with
    | none => .error (.undefinedTable parts)
    | some rows => .ok [[("count", Value.nat rows.length)]]
  | .selectStmt parts limit offset =>
    match lookupTable db parts with
    | none => .error (.undefinedTable parts)
    | some rows => .ok ((rows.drop offset).take limit)
  | .indexLookup rid =>
    .ok ((db.tables_index.filter (fun p => p.1 = rid)).map
          (fun p => [("parsing_table", Value.str p.2)]))

/-- The oracle induced by a concrete store (read statements do not
depend on the connection). -/
def dbExec (db : DB) : Exec := fun _ s => runStmt db s

/-! ## Lemmas: rendered statements are single statements -/

theorem semiCount_no_special (l : List Char)
    (h : ∀ c ∈ l, c ≠ '"' ∧ c ≠ ';') (b : Bool) (rest : List Char) :
    semiCount b (l ++ rest) = semiCount b rest := by
  induction l with
  | nil => rfl
  | cons c cs ih =>
    have hc := h c (by simp)
    simp only [List.cons_append, semiCount, if_neg hc.1]
    rw [if_neg (by simp [hc.2])]
    exact ih (fun d hd => h d (by simp [hd]))

theorem semiCount_escape (cs rest : List Char) :
    semiCount true (escapeIdentChars cs ++ rest) = semiCount true rest := by
  induction cs with
  | nil => rfl
  | cons c cs ih =>
    by_cases hc : c = '"'
    · simp only [escapeIdentChars, if_pos hc, List.cons_append, semiCount,
        if_pos rfl, Bool.not_true, Bool.not_false]
      exact ih
    · simp only [escapeIdentChars, if_neg hc, List.cons_append, semiCount,
        if_neg hc]
      rw [if_neg (by simp)]
      exact ih

theorem semiCount_quote (cs rest : List Char) :
    semiCount false (quoteIdentChars cs ++ rest) = semiCount false rest := by
  have h1 : quoteIdentChars cs ++ rest
      = '"' :: (escapeIdentChars cs ++ '"' :: rest) := by
    simp [quoteIdentChars, List.cons_append, List.append_assoc]
  rw [h1]
  have h2 : semiCount false ('"' :: (escapeIdentChars cs ++ '"' :: rest))
      = semiCount true (escapeIdentChars cs ++ '"' :: rest) := by
    simp [semiCount]
  rw [h2, semiCount_escape]
  simp [semiCount]

theorem semiCount_chain (ps : List (List Char)) (rest : List Char) :
    semiCount false (chainChars ps ++ rest) = semiCount false rest := by
  induction ps with
  | nil => rfl
  | cons p ps ih =>
    cases ps with
    | nil => simpa [chainChars] using semiCount_quote p rest
    | cons q qs =>
      simp only [chainChars, List.append_assoc, List.cons_append]
      rw [semiCount_quote]
      have hdot : ('.' : Char) ≠ '"' := by decide
      simp only [semiCount, if_neg hdot]
      rw [if_neg (by simp)]
      exact ih

theorem count_text_single_statement (parts : List String) :
    topLevelSemicolons (stmtText (Stmt.countStmt parts)) = 0 := by
  show semiCount false ("SELECT COUNT(*) as count FROM ".data
    ++ chainChars (parts.map String.data)) = 0
  rw [semiCount_no_special _ (by decide)]
  rw [show chainChars (parts.map String.data)
      = chainChars (parts.map String.data) ++ [] by simp]
  rw [semiCount_chain]
  rfl

theorem select_text_single_statement (parts : List String)
    (limit offset : Nat) :
    topLevelSemicolons (stmtText (Stmt.selectStmt parts limit offset)) = 0 := by
  show semiCount false ("SELECT * FROM ".data
    ++ chainChars (parts.map String.data) ++ " LIMIT %s OFFSET %s".data) = 0
  rw [List.append_assoc, semiCount_no_special _ (by decide), semiCount_chain]
  decide

/-! ## Lemmas: quoted identifier chains decode to exactly their parts -/

theorem parseIdentContent_escape (cs rest : List Char)
    (h : rest.head? ≠ some '"') :
    parseIdentContent (escapeIdentChars cs ++ '"' :: rest) = some (cs, rest) := by
  induction cs with
  | nil =>
    cases rest with
    | nil => rfl
    | cons r rs =>
      have hr : r ≠ '"' := by
        intro he; exact h (by simp [he])
      simp [escapeIdentChars, parseIdentContent, hr]
  | cons c cs ih =>
    by_cases hc : c = '"'
    · subst hc
      have hstep : escapeIdentChars ('"' :: cs) ++ '"' :: rest
          = '"' :: '"' :: (escapeIdentChars cs ++ '"' :: rest) := by
        simp [escapeIdentChars]
      rw [hstep]
      simp only [parseIdentContent, if_pos rfl]
      rw [ih]
      rfl
    · have hstep : escapeIdentChars (c :: cs) ++ '"' :: rest
          = c :: (escapeIdentChars cs ++ '"' :: rest) := by
        simp [escapeIdentChars, hc]
      rw [hstep]
      cases hmid : escapeIdentChars cs ++ '"' :: rest with
      | nil => exact absurd hmid (by simp)
      | cons d ds =>
        simp only [parseIdentContent, if_neg hc]
        rw [← hmid, ih]
        rfl

theorem parseChainFuel_chain (ps : List (List Char)) :
    ∀ fuel, ps ≠ [] → ps.length ≤ fuel →
      parseChainFuel fuel (chainChars ps) = some ps := by
  induction ps with
  | nil => intro fuel h _; exact absurd rfl h
  | cons p ps ih =>
    intro fuel _ hlen
    cases fuel with
    | zero => simp at hlen
    | succ f =>
      cases ps with
      | nil =>
        have hstep : chainChars [p]
            = '"' :: (escapeIdentChars p ++ '"' :: []) := by
          simp [chainChars, quoteIdentChars]
        rw [hstep]
        simp only [parseChainFuel, if_pos rfl]
        rw [parseIdentContent_escape p [] (by simp)]
        simp
      | cons q qs =>
        have hstep : chainChars (p :: q :: qs)
            = '"' :: (escapeIdentChars p ++ '"' :: ('.' :: chainChars (q :: qs))) := by
          simp [chainChars, quoteIdentChars, List.append_assoc]
        rw [hstep]
        simp only [parseChainFuel, if_pos rfl]
        rw [parseIdentContent_escape p ('.' :: chainChars (q :: qs)) (by simp)]
        simp only [if_pos rfl]
        rw [ih f (by simp) (by simp at hlen ⊢; omega)]
        rfl

theorem chainChars_length (ps : List (List Char)) :
    ps.length ≤ (chainChars ps).length := by
  induction ps with
  | nil => simp [chainChars]
  | cons p ps ih =>
    cases ps with
    | nil => simp [chainChars, quoteIdentChars]
    | cons q qs =>
      simp only [chainChars, quoteIdentChars, List.length_append,
        List.length_cons] at ih ⊢
      omega

theorem parseChain_chain (ps : List (List Char)) (h : ps ≠ []) :
    parseChain (chainChars ps) = some ps :=
  parseChainFuel_chain ps (chainChars ps).length h (chainChars_length ps)

theorem splitDot_ne_nil (l : List Char) : splitDot l ≠ [] := by
  induction l with
  | nil => simp [splitDot]
  | cons c cs ih =>
    by_cases hc : c = '.'
    · simp [splitDot, hc]
    · simp only [splitDot, if_neg hc]
      cases hs : splitDot cs with
      | nil => simp
      | cons p ps => simp

theorem tableParts_ne_nil (s : String) : tableParts s ≠ [] := by
  simpa [tableParts] using splitDot_ne_nil s.data

theorem tableParts_map_data (s : String) :
    (tableParts s).map String.data = splitDot s.data := by
  simp [tableParts, List.map_map, Function.comp_def]

/-- The identifier chain embedded in the two table statements decodes
back to exactly the split parts of the table name: quoting is lossless
and unambiguous. -/
theorem parseChain_renderChain (parts : List String) (h : parts ≠ []) :
    parseChain (renderChain parts).data = some (parts.map String.data) := by
  show parseChain (chainChars (parts.map String.data)) = _
  exact parseChain_chain _ (by simpa using h)

/-! ## Connection lifecycle: trace predicates -/

/-- Events that open or close a connection. -/
def isConnEvent : Event → Bool
  | .openConn _ => true
  | .closeConn _ => true
  | .runStmtEv _ _ => false
  | .commitEv _ => false

/-- Events that open a connection. -/
def isOpenEvent : Event → Bool
  | .openConn _ => true
  | _ => false

/-- Whether an event involves connection `c`. -/
def onConn (c : Nat) : Event → Bool
  | .openConn k => k = c
  | .closeConn k => k = c
  | .runStmtEv k _ => k = c
  | .commitEv k => k = c

/-- How many connections a trace opens. -/
def openCount (evs : List Event) : Nat :=
  (evs.filter isOpenEvent).length

/-- The trace neither opens nor closes any connection: what an
operation running on a caller-supplied connection must satisfy. -/
def NoConnEvents (evs : List Event) : Prop :=
  ∀ e ∈ evs, isConnEvent e = false

/-- Scoped acquisition: the trace opens exactly the fresh connection
first, closes exactly it last, and touches no other connection
lifecycle in between. -/
def OwnedScoped (freshId : Nat) (evs : List Event) : Prop :=
  ∃ body, evs = Event.openConn freshId :: (body ++ [Event.closeConn freshId])
    ∧ NoConnEvents body

theorem openCount_of_noConnEvents (evs : List Event)
    (h : NoConnEvents evs) : openCount evs = 0 := by
  simp only [openCount, List.length_eq_zero, List.filter_eq_nil_iff]
  intro e he
  have := h e he
  cases e <;> simp_all [isConnEvent, isOpenEvent]

theorem openCount_of_ownedScoped (freshId : Nat) (evs : List Event)
    (h : OwnedScoped freshId evs) : openCount evs = 1 := by
  obtain ⟨body, hevs, hbody⟩ := h
  subst hevs
  simp only [openCount, List.filter_cons, List.filter_append]
  have h1 : isOpenEvent (Event.openConn freshId) = true := rfl
  have h2 : List.filter isOpenEvent body = [] := by
    simp only [List.filter_eq_nil_iff]
    intro e he
    have := hbody e he
    cases e <;> simp_all [isConnEvent, isOpenEvent]
  simp [h1, h2, isOpenEvent]

/-! ## Trace lemmas for the statement-executor primitives -/

theorem fetch_events_supplied (ex : Exec) (q : Stmt) (c freshId : Nat) :
    (fetch ex q (some c) freshId).2 = [Event.runStmtEv c q] := rfl

theorem fetch_events_owned (ex : Exec) (q : Stmt) (freshId : Nat) :
    (fetch ex q none freshId).2
      = [Event.openConn freshId, Event.runStmtEv freshId q,
         Event.closeConn freshId] := rfl

theorem fetchrow_events_supplied (ex : Exec) (q : Stmt) (c freshId : Nat) :
    (fetchrow ex q (some c) freshId).2 = [Event.runStmtEv c q] := rfl

theorem fetchrow_events_owned (ex : Exec) (q : Stmt) (freshId : Nat) :
    (fetchrow ex q none freshId).2
      = [Event.openConn freshId, Event.runStmtEv freshId q,
         Event.closeConn freshId] := rfl

theorem execute_events_supplied (ex : Exec) (q : Stmt) (c freshId : Nat) :
    (execute ex q (some c) freshId).2 = [Event.runStmtEv c q]
    ∨ (execute ex q (some c) freshId).2
      = [Event.runStmtEv c q, Event.commitEv c] := by
  unfold execute ensure_connection closeEvents
  cases h : ex c q <;> simp [h]

theorem execute_events_owned (ex : Exec) (q : Stmt) (freshId : Nat) :
    (execute ex q none freshId).2
      = [Event.openConn freshId, Event.runStmtEv freshId q,
         Event.closeConn freshId]
    ∨ (execute ex q none freshId).2
      = [Event.openConn freshId, Event.runStmtEv freshId q,
         Event.commitEv freshId, Event.closeConn freshId] := by
  unfold execute ensure_connection closeEvents
  cases h : ex freshId q <;> simp [h]

theorem executemany_events_supplied (ex : Exec) (q : Stmt) (c freshId : Nat) :
    (executemany ex q (some c) freshId).2 = [Event.runStmtEv c q]
    ∨ (executemany ex q (some c) freshId).2
      = [Event.runStmtEv c q, Event.commitEv c] := by
  unfold executemany ensure_connection closeEvents
  cases h : ex c q <;> simp [h]

theorem executemany_events_owned (ex : Exec) (q : Stmt) (freshId : Nat) :
    (executemany ex q none freshId).2
      = [Event.openConn freshId, Event.runStmtEv freshId q,
         Event.closeConn freshId]
    ∨ (executemany ex q none freshId).2
      = [Event.openConn freshId, Event.runStmtEv freshId q,
         Event.commitEv freshId, Event.closeConn freshId] := by
  unfold executemany ensure_connection closeEvents
  cases h : ex freshId q <;> simp [h]

theorem get_table_name_events_supplied (ex : Exec) (rid : String)
    (c freshId : Nat) :
    (get_table_name_for_resource ex rid (some c) freshId).2
      = [Event.runStmtEv c (Stmt.indexLookup rid)] := rfl

theorem get_table_name_events_owned (ex : Exec) (rid : String)
    (freshId : Nat) :
    (get_table_name_for_resource ex rid none freshId).2
      = [Event.openConn freshId,
         Event.runStmtEv freshId (Stmt.indexLookup rid),
         Event.closeConn freshId] := rfl

theorem explore_table_events_supplied (ex : Exec) (t : String)
    (limit offset c freshId : Nat) :
    (explore_table ex t limit offset (some c) freshId).2
      = [Event.runStmtEv c (Stmt.countStmt (tableParts t))]
    ∨ (explore_table ex t limit offset (some c) freshId).2
      = [Event.runStmtEv c (Stmt.countStmt (tableParts t)),
         Event.runStmtEv c (Stmt.selectStmt (tableParts t) limit offset)] := by
  unfold explore_table ensure_connection closeEvents
  cases h1 : ex c (Stmt.countStmt (tableParts t)) with
  | error e => simp [h1]
  | ok countRows =>
    cases h2 : extractCount countRows with
    | error e => simp [h1, h2]
    | ok total =>
      cases h3 : ex c (Stmt.selectStmt (tableParts t) limit offset) <;>
        simp [h1, h2, h3]

theorem explore_table_events_owned (ex : Exec) (t : String)
    (limit offset freshId : Nat) :
    (explore_table ex t limit offset none freshId).2
      = Event.openConn freshId
        :: [Event.runStmtEv freshId (Stmt.countStmt (tableParts t))]
        ++ [Event.closeConn freshId]
    ∨ (explore_table ex t limit offset none freshId).2
      = Event.openConn freshId
        :: [Event.runStmtEv freshId (Stmt.countStmt (tableParts t)),
            Event.runStmtEv freshId (Stmt.selectStmt (tableParts t) limit offset)]
        ++ [Event.closeConn freshId] := by
  unfold explore_table ensure_connection closeEvents
  cases h1 : ex freshId (Stmt.countStmt (tableParts t)) with
  | error e => simp [h1]
  | ok countRows =>
    cases h2 : extractCount countRows with
    | error e => simp [h1, h2]
    | ok total =>
      cases h3 : ex freshId (Stmt.selectStmt (tableParts t) limit offset) <;>
        simp [h1, h2, h3]

theorem explore_resource_supplied_events (ex : Exec) (rid : String)
    (limit offset c freshId : Nat) :
    ∀ e ∈ (explore_resource ex rid limit offset (some c) freshId).2,
      isConnEvent e = false ∧ onConn c e = true := by
  unfold explore_resource closeEvents
  simp only [ensure_connection]
  rw [get_table_name_events_supplied]
  cases hg : (get_table_name_for_resource ex rid (some c) freshId).1 with
  | error e => simp [isConnEvent, onConn]
  | ok tn =>
    cases tn with
    | none => simp [isConnEvent, onConn]
    | some t =>
      simp only []
      by_cases ht : t = ""
      · simp [ht, isConnEvent, onConn]
      · rcases het : explore_table ex t limit offset (some c) freshId with ⟨etRes, ev2⟩
        have hev2 : ev2 = [Event.runStmtEv c (Stmt.countStmt (tableParts t))]
            ∨ ev2 = [Event.runStmtEv c (Stmt.countStmt (tableParts t)),
                     Event.runStmtEv c (Stmt.selectStmt (tableParts t) limit offset)] := by
          have := explore_table_events_supplied ex t limit offset c freshId
          rw [het] at this
          exact this
        rw [if_neg ht]
        cases etRes with
        | error e =>
          rcases hev2 with h2 | h2 <;> subst h2 <;> simp [isConnEvent, onConn]
        | ok r =>
          rcases hev2 with h2 | h2 <;> subst h2 <;> simp [isConnEvent, onConn]

theorem explore_resource_owned_events_eq (ex : Exec) (rid : String)
    (limit offset freshId : Nat) :
    (explore_resource ex rid limit offset none freshId).2
      = Event.openConn freshId
        :: ((explore_resource ex rid limit offset (some freshId) freshId).2
            ++ [Event.closeConn freshId]) := by
  unfold explore_resource closeEvents
  simp only [ensure_connection]
  cases hg : (get_table_name_for_resource ex rid (some freshId) freshId).1 with
  | error e => simp
  | ok tn =>
    cases tn with
    | none => simp
    | some t =>
      simp only []
      by_cases ht : t = ""
      · simp [ht]
      · rcases het : explore_table ex t limit offset (some freshId) freshId with ⟨etRes, ev2⟩
        rw [if_neg ht]
        cases etRes with
        | error e => simp [ht]
        | ok r => simp [ht]

/-! ## Semantics of the operations over a concrete store -/

/-- Statements that touch a data table (the Table Explorer's queries). -/
def isTableQuery : Event → Bool
  | .runStmtEv _ (Stmt.countStmt _) => true
  | .runStmtEv _ (Stmt.selectStmt _ _ _) => true
  | _ => false

theorem filter_head_eq_find {α : Type} (l : List α) (pr : α → Bool) :
    (l.filter pr).head? = l.find? pr := by
  induction l with
  | nil => rfl
  | cons a l ih =>
    by_cases h : pr a
    · simp [List.filter_cons, List.find?_cons, h]
    · simp [List.filter_cons, List.find?_cons, h, ih]

theorem get_table_name_semantics (db : DB) (rid : String) (oc : Option Nat)
    (freshId : Nat) :
    (get_table_name_for_resource (dbExec db) rid oc freshId).1
      = Except.ok ((db.tables_index.find? (fun p => p.1 = rid)).map
          (fun p => p.2)) := by
  cases hf : db.tables_index.find? (fun p => decide (p.1 = rid)) with
  | none =>
    have hfil : db.tables_index.filter (fun p => decide (p.1 = rid)) = [] := by
      rw [List.filter_eq_nil_iff]
      intro a ha
      have := List.find?_eq_none.mp hf a ha
      simpa using this
    cases oc <;>
      simp [get_table_name_for_resource, fetchrow, ensure_connection, dbExec,
        runStmt, hfil, hf]
  | some pr =>
    obtain ⟨tail, htail⟩ :
        ∃ tail, db.tables_index.filter (fun p => decide (p.1 = rid)) = pr :: tail := by
      have hhead : (db.tables_index.filter (fun p => decide (p.1 = rid))).head?
          = some pr := by
        rw [filter_head_eq_find, hf]
      cases hfl : db.tables_index.filter (fun p => decide (p.1 = rid)) with
      | nil => rw [hfl] at hhead; simp at hhead
      | cons x xs =>
        rw [hfl] at hhead
        simp only [List.head?_cons, Option.some.injEq] at hhead
        exact ⟨xs, by rw [hhead]⟩
    cases oc <;>
      simp [get_table_name_for_resource, fetchrow, ensure_connection, dbExec,
        runStmt, htail, hf, rowGet]

theorem explore_table_semantics (db : DB) (table_name : String)
    (tblRows : List Row) (limit offset : Nat) (oc : Option Nat) (freshId : Nat)
    (h : lookupTable db (tableParts table_name) = some tblRows) :
    (explore_table (dbExec db) table_name limit offset oc freshId).1
      = Except.ok { rows := (tblRows.drop offset).take limit,
                    count := Value.nat tblRows.length,
                    limit := limit, offset := offset } := by
  cases oc <;>
    simp [explore_table, ensure_connection, closeEvents, dbExec, runStmt, h,
      extractCount, rowGet]

theorem explore_table_missing (db : DB) (table_name : String)
    (limit offset : Nat) (oc : Option Nat) (freshId : Nat)
    (h : lookupTable db (tableParts table_name) = none) :
    (explore_table (dbExec db) table_name limit offset oc freshId).1
      = Except.error (DbError.undefinedTable (tableParts table_name)) := by
  cases oc <;>
    simp [explore_table, ensure_connection, closeEvents, dbExec, runStmt, h]

theorem explore_resource_empty_shape (db : DB) (rid : String)
    (limit offset : Nat) (oc : Option Nat) (freshId : Nat)
    (hf : (db.tables_index.find? (fun p => p.1 = rid)).map (fun p => p.2) = none
      ∨ (db.tables_index.find? (fun p => p.1 = rid)).map (fun p => p.2)
          = some "") :
    (explore_resource (dbExec db) rid limit offset oc freshId).1
      = Except.ok (emptyResourceResult rid limit offset)
    ∧ ∀ e ∈ (explore_resource (dbExec db) rid limit offset oc freshId).2,
        isTableQuery e = false := by
  cases oc with
  | none =>
    unfold explore_resource closeEvents
    simp only [ensure_connection]
    rw [get_table_name_semantics]
    rcases hf with hf | hf <;>
    · rw [hf]
      simp only []
      rw [get_table_name_events_supplied]
      constructor
      · simp
      · simp [isTableQuery]
  | some c =>
    unfold explore_resource closeEvents
    simp only [ensure_connection]
    rw [get_table_name_semantics]
    rcases hf with hf | hf <;>
    · rw [hf]
      simp only []
      rw [get_table_name_events_supplied]
      constructor
      · simp
      · simp [isTableQuery]

theorem explore_resource_found (db : DB) (rid t : String)
    (limit offset : Nat) (oc : Option Nat) (freshId : Nat)
    (hf : (db.tables_index.find? (fun p => p.1 = rid)).map (fun p => p.2)
        = some t)
    (ht : t ≠ "") :
    (explore_resource (dbExec db) rid limit offset oc freshId).1
      = ((explore_table (dbExec db) t limit offset (some (oc.getD freshId))
            freshId).1).map
          (fun r => { resource_id := rid, table_name := some t, rows := r.rows,
                      count := r.count, limit := r.limit, offset := r.offset }) := by
  cases oc with
  | none =>
    unfold explore_resource closeEvents
    simp only [ensure_connection]
    rw [get_table_name_semantics, hf]
    simp only [Option.getD]
    rw [if_neg ht]
    rcases het : explore_table (dbExec db) t limit offset (some freshId) freshId
      with ⟨etRes, ev2⟩
    cases etRes <;> simp [Except.map]
  | some c =>
    unfold explore_resource closeEvents
    simp only [ensure_connection]
    rw [get_table_name_semantics, hf]
    simp only [Option.getD]
    rw [if_neg ht]
    rcases het : explore_table (dbExec db) t limit offset (some c) freshId
      with ⟨etRes, ev2⟩
    cases etRes <;> simp [Except.map]

/-! ## Claim theorems -/

/-- C3: for every operation of the subsystem (fetch, fetchrow, execute,
executemany, get_table_name_for_resource, explore_table,
explore_resource), and for every outcome of statement execution
(including failures): a caller-supplied connection is never closed (the
trace has no open or close events at all), and when no connection is
supplied the operation opens exactly one fresh connection first and
closes exactly it last, on every exit path. -/
theorem C3_connection_lifecycle :
    ∀ (ex : Exec) (q : Stmt) (rid t : String) (limit offset c freshId : Nat),
      NoConnEvents (fetch ex q (some c) freshId).2
      ∧ OwnedScoped freshId (fetch ex q none freshId).2
      ∧ NoConnEvents (fetchrow ex q (some c) freshId).2
      ∧ OwnedScoped freshId (fetchrow ex q none freshId).2
      ∧ NoConnEvents (execute ex q (some c) freshId).2
      ∧ OwnedScoped freshId (execute ex q none freshId).2
      ∧ NoConnEvents (executemany ex q (some c) freshId).2
      ∧ OwnedScoped freshId (executemany ex q none freshId).2
      ∧ NoConnEvents (get_table_name_for_resource ex rid (some c) freshId).2
      ∧ OwnedScoped freshId (get_table_name_for_resource ex rid none freshId).2
      ∧ NoConnEvents (explore_table ex t limit offset (some c) freshId).2
      ∧ OwnedScoped freshId (explore_table ex t limit offset none freshId).2
      ∧ NoConnEvents (explore_resource ex rid limit offset (some c) freshId).2
      ∧ OwnedScoped freshId (explore_resource ex rid limit offset none freshId).2 := by
  intro ex q rid t limit offset c freshId
  refine ⟨?_, ?_, ?_, ?_, ?_, ?_, ?_, ?_, ?_, ?_, ?_, ?_, ?_, ?_⟩
  · simp [NoConnEvents, fetch_events_supplied, isConnEvent]
  · exact ⟨[Event.runStmtEv freshId q], by simp [fetch_events_owned],
      by simp [NoConnEvents, isConnEvent]⟩
  · simp [NoConnEvents, fetchrow_events_supplied, isConnEvent]
  · exact ⟨[Event.runStmtEv freshId q], by simp [fetchrow_events_owned],
      by simp [NoConnEvents, isConnEvent]⟩
  · rcases execute_events_supplied ex q c freshId with h | h <;>
      simp [NoConnEvents, h, isConnEvent]
  · rcases execute_events_owned ex q freshId with h | h
    · exact ⟨[Event.runStmtEv freshId q], by simp [h],
        by simp [NoConnEvents, isConnEvent]⟩
    · exact ⟨[Event.runStmtEv freshId q, Event.commitEv freshId], by simp [h],
        by simp [NoConnEvents, isConnEvent]⟩
  · rcases executemany_events_supplied ex q c freshId with h | h <;>
      simp [NoConnEvents, h, isConnEvent]
  · rcases executemany_events_owned ex q freshId with h | h
    · exact ⟨[Event.runStmtEv freshId q], by simp [h],
        by simp [NoConnEvents, isConnEvent]⟩
    · exact ⟨[Event.runStmtEv freshId q, Event.commitEv freshId], by simp [h],
        by simp [NoConnEvents, isConnEvent]⟩
  · simp [NoConnEvents, get_table_name_events_supplied, isConnEvent]
  · exact ⟨[Event.runStmtEv freshId (Stmt.indexLookup rid)],
      by simp [get_table_name_events_owned], by simp [NoConnEvents, isConnEvent]⟩
  · rcases explore_table_events_supplied ex t limit offset c freshId with h | h <;>
      simp [NoConnEvents, h, isConnEvent]
  · rcases explore_table_events_owned ex t limit offset freshId with h | h
    · exact ⟨[Event.runStmtEv freshId (Stmt.countStmt (tableParts t))],
        by simp [h], by simp [NoConnEvents, isConnEvent]⟩
    · exact ⟨[Event.runStmtEv freshId (Stmt.countStmt (tableParts t)),
              Event.runStmtEv freshId (Stmt.selectStmt (tableParts t) limit offset)],
        by simp [h], by simp [NoConnEvents, isConnEvent]⟩
  · exact fun e he => (explore_resource_supplied_events ex rid limit offset c freshId e he).1
  · refine ⟨(explore_resource ex rid limit offset (some freshId) freshId).2,
      by rw [explore_resource_owned_events_eq], ?_⟩
    exact fun e he =>
      (explore_resource_supplied_events ex rid limit offset freshId freshId e he).1

/-- C1: for every table reference given to the Table Explorer, each
dot-separated part reaches the SQL text only through identifier quoting:
the rendered counting and selection texts contain no statement separator
outside quoted regions (cannot execute as multiple statements), the
quoted identifier chain decodes back to exactly the split parts (cannot
name an unintended object), and a reference naming no existing object
fails with the distinct UndefinedTable error — not a generic failure
(the error constructors are disjoint). -/
theorem C1_injection_safety :
    ∀ (table_name : String) (limit offset : Nat),
      topLevelSemicolons (stmtText (Stmt.countStmt (tableParts table_name))) = 0
      ∧ topLevelSemicolons
          (stmtText (Stmt.selectStmt (tableParts table_name) limit offset)) = 0
      ∧ parseChain (renderChain (tableParts table_name)).data
          = some ((tableParts table_name).map String.data)
      ∧ (∀ (db : DB) (oc : Option Nat) (freshId : Nat),
          lookupTable db (tableParts table_name) = none →
          (explore_table (dbExec db) table_name limit offset oc freshId).1
            = Except.error (DbError.undefinedTable (tableParts table_name)))
      ∧ (∀ (parts : List String) (msg : String),
          DbError.undefinedTable parts ≠ DbError.execFailed msg) := by
  intro table_name limit offset
  refine ⟨count_text_single_statement _, select_text_single_statement _ _ _,
    parseChain_renderChain _ (tableParts_ne_nil _), ?_, ?_⟩
  · intro db oc freshId hnone
    exact explore_table_missing db table_name limit offset oc freshId hnone
  · intro parts msg h
    cases h

/-- C1 witness: the malicious reference "users; DROP TABLE users" on an
empty store stays one statement and fails with the UndefinedTable error
naming exactly that single (quoted) part. -/
theorem C1_injection_safety_witness :
    topLevelSemicolons
      (stmtText (Stmt.countStmt (tableParts "users; DROP TABLE users"))) = 0
    ∧ lookupTable ⟨[], []⟩ (tableParts "users; DROP TABLE users") = none
    ∧ (explore_table (dbExec ⟨[], []⟩) "users; DROP TABLE users" 100 0 none 0).1
        = Except.error
            (DbError.undefinedTable (tableParts "users; DROP TABLE users")) := by
  refine ⟨(C1_injection_safety "users; DROP TABLE users" 100 0).1, rfl, ?_⟩
  exact (C1_injection_safety "users; DROP TABLE users" 100 0).2.2.2.1
    ⟨[], []⟩ none 0 rfl

/-- C2: a resource id with no index record yields the exact zero-result
shape, no error, and no statement against any data table, for every
limit, offset and connection mode. -/
theorem C2_missing_resource_empty :
    ∀ (db : DB) (rid : String) (limit offset : Nat) (oc : Option Nat)
      (freshId : Nat),
      db.tables_index.find? (fun p => p.1 = rid) = none →
      (explore_resource (dbExec db) rid limit offset oc freshId).1
        = Except.ok { resource_id := rid, table_name := none, rows := [],
                      count := Value.nat 0, limit := limit, offset := offset }
      ∧ ∀ e ∈ (explore_resource (dbExec db) rid limit offset oc freshId).2,
          isTableQuery e = false := by
  intro db rid limit offset oc freshId hf
  have := explore_resource_empty_shape db rid limit offset oc freshId
    (Or.inl (by rw [hf]; rfl))
  exact ⟨this.1, this.2⟩

/-- C2 witness: the spec's concrete scenario
explore_resource("missing-id", limit=10, offset=0) on a store whose
index knows only another resource. -/
theorem C2_missing_resource_empty_witness :
    (explore_resource (dbExec ⟨[("abc-123", "imports.sales_q1")], []⟩)
        "missing-id" 10 0 none 0).1
      = Except.ok { resource_id := "missing-id", table_name := none,
                    rows := [], count := Value.nat 0, limit := 10,
                    offset := 0 } :=
  (C2_missing_resource_empty ⟨[("abc-123", "imports.sales_q1")], []⟩
    "missing-id" 10 0 none 0 (by decide)).1

/-- C4 counterexample: the table reference "a.b.c" splits into three
identifier parts, not one or two, so the claimed "exactly 1 or 2" fails. -/
theorem C4_counterexample :
    ¬ ((tableParts "a.b.c").length = 1 ∨ (tableParts "a.b.c").length = 2) := by
  decide

/-- C4 (amended): splitting yields one or more identifier parts (one
when unqualified, two when schema-qualified, more when the reference
contains further dots); every part is substituted only through
identifier quoting (the quoted chain decodes back to exactly the parts),
while limit and offset are bound as value parameters and never appear in
the statement text; the statements the Table Explorer runs are exactly
the counting and selection statements over those parts. -/
theorem C4_parts_and_parameterization :
    ∀ (table_name : String) (limit offset : Nat),
      1 ≤ (tableParts table_name).length
      ∧ stmtText (Stmt.selectStmt (tableParts table_name) limit offset)
          = stmtText (Stmt.selectStmt (tableParts table_name) 0 0)
      ∧ stmtParams (Stmt.selectStmt (tableParts table_name) limit offset)
          = [Value.nat limit, Value.nat offset]
      ∧ stmtParams (Stmt.countStmt (tableParts table_name)) = []
      ∧ parseChain (renderChain (tableParts table_name)).data
          = some ((tableParts table_name).map String.data)
      ∧ ∀ (ex : Exec) (c freshId : Nat),
          (explore_table ex table_name limit offset (some c) freshId).2
            = [Event.runStmtEv c (Stmt.countStmt (tableParts table_name))]
          ∨ (explore_table ex table_name limit offset (some c) freshId).2
            = [Event.runStmtEv c (Stmt.countStmt (tableParts table_name)),
               Event.runStmtEv c
                 (Stmt.selectStmt (tableParts table_name) limit offset)] := by
  intro table_name limit offset
  refine ⟨List.length_pos.mpr (tableParts_ne_nil _), rfl, rfl, rfl,
    parseChain_renderChain _ (tableParts_ne_nil _), ?_⟩
  intro ex c freshId
  exact explore_table_events_supplied ex table_name limit offset c freshId

/-- C5: for an existing table, the returned rows are the window starting
at the offset-th row of the store's result order, at most limit rows,
and the returned limit and offset fields echo the arguments; the same
window propagates through explore_resource when the index resolves to
that table. -/
theorem C5_rows_window :
    ∀ (db : DB) (table_name : String) (tblRows : List Row) (rid : String)
      (limit offset : Nat) (oc : Option Nat) (freshId : Nat),
      lookupTable db (tableParts table_name) = some tblRows →
      1 ≤ limit →
      (explore_table (dbExec db) table_name limit offset oc freshId).1
        = Except.ok { rows := (tblRows.drop offset).take limit,
                      count := Value.nat tblRows.length,
                      limit := limit, offset := offset }
      ∧ ((tblRows.drop offset).take limit).length ≤ limit
      ∧ ((db.tables_index.find? (fun p => p.1 = rid)).map (fun p => p.2)
            = some table_name →
         table_name ≠ "" →
         (explore_resource (dbExec db) rid limit offset oc freshId).1
           = Except.ok { resource_id := rid, table_name := some table_name,
                         rows := (tblRows.drop offset).take limit,
                         count := Value.nat tblRows.length,
                         limit := limit, offset := offset }) := by
  intro db table_name tblRows rid limit offset oc freshId hlook _
  refine ⟨explore_table_semantics db table_name tblRows limit offset oc freshId
      hlook, ?_, ?_⟩
  · exact List.length_take_le limit (tblRows.drop offset)
  · intro hf ht
    rw [explore_resource_found db rid table_name limit offset oc freshId hf ht,
      explore_table_semantics db table_name tblRows limit offset
        (some (oc.getD freshId)) freshId hlook]
    rfl

/-- C5 witness: a three-row table, limit 2, offset 1: two rows returned,
starting at the second stored row, with count 3 and the arguments echoed;
the same through explore_resource. -/
theorem C5_rows_window_witness :
    lookupTable
        ⟨[("abc", "t")], [(["t"], [[("x", Value.nat 1)], [("x", Value.nat 2)],
          [("x", Value.nat 3)]])]⟩ (tableParts "t")
      = some [[("x", Value.nat 1)], [("x", Value.nat 2)], [("x", Value.nat 3)]]
    ∧ (explore_table
          (dbExec ⟨[("abc", "t")], [(["t"], [[("x", Value.nat 1)],
            [("x", Value.nat 2)], [("x", Value.nat 3)]])]⟩) "t" 2 1 none 0).1
        = Except.ok { rows := [[("x", Value.nat 2)], [("x", Value.nat 3)]],
                      count := Value.nat 3, limit := 2, offset := 1 }
    ∧ (explore_resource
          (dbExec ⟨[("abc", "t")], [(["t"], [[("x", Value.nat 1)],
            [("x", Value.nat 2)], [("x", Value.nat 3)]])]⟩) "abc" 2 1 none 0).1
        = Except.ok { resource_id := "abc", table_name := some "t",
                      rows := [[("x", Value.nat 2)], [("x", Value.nat 3)]],
                      count := Value.nat 3, limit := 2, offset := 1 } := by
  have h := C5_rows_window
    ⟨[("abc", "t")], [(["t"], [[("x", Value.nat 1)], [("x", Value.nat 2)],
      [("x", Value.nat 3)]])]⟩ "t"
    [[("x", Value.nat 1)], [("x", Value.nat 2)], [("x", Value.nat 3)]]
    "abc" 2 1 none 0 (by decide) (by decide)
  exact ⟨by decide, h.1, h.2.2 (by decide) (by decide)⟩

/-- C6: explore_resource opens at most one connection — none when the
caller supplies one, exactly one otherwise — and every event of the call
(the index lookup, the count, the selection) runs on that single
connection; within explore_table the count and the selection run on the
same supplied connection. -/
theorem C6_single_connection :
    ∀ (ex : Exec) (rid t : String) (limit offset c freshId : Nat),
      openCount (explore_resource ex rid limit offset (some c) freshId).2 = 0
      ∧ (∀ e ∈ (explore_resource ex rid limit offset (some c) freshId).2,
          onConn c e = true)
      ∧ openCount (explore_resource ex rid limit offset none freshId).2 = 1
      ∧ (∀ e ∈ (explore_resource ex rid limit offset none freshId).2,
          onConn freshId e = true)
      ∧ ((explore_table ex t limit offset (some c) freshId).2
          = [Event.runStmtEv c (Stmt.countStmt (tableParts t))]
        ∨ (explore_table ex t limit offset (some c) freshId).2
          = [Event.runStmtEv c (Stmt.countStmt (tableParts t)),
             Event.runStmtEv c (Stmt.selectStmt (tableParts t) limit offset)]) := by
  intro ex rid t limit offset c freshId
  refine ⟨?_, ?_, ?_, ?_, explore_table_events_supplied ex t limit offset c freshId⟩
  · exact openCount_of_noConnEvents _ (fun e he =>
      (explore_resource_supplied_events ex rid limit offset c freshId e he).1)
  · exact fun e he =>
      (explore_resource_supplied_events ex rid limit offset c freshId e he).2
  · exact openCount_of_ownedScoped freshId _
      ⟨(explore_resource ex rid limit offset (some freshId) freshId).2,
       explore_resource_owned_events_eq ex rid limit offset freshId,
       fun e he =>
         (explore_resource_supplied_events ex rid limit offset freshId freshId
           e he).1⟩
  · intro e he
    rw [explore_resource_owned_events_eq ex rid limit offset freshId] at he
    simp only [List.mem_cons, List.mem_append, List.mem_singleton,
      List.not_mem_nil, or_false] at he
    rcases he with rfl | he | rfl
    · simp [onConn]
    · exact (explore_resource_supplied_events ex rid limit offset freshId
        freshId e he).2
    · simp [onConn]

/-- C7: the resolver runs the fixed parameterized equality lookup against
tables_index — the statement text is a constant with the resource id
carried only as a bound value — and returns the first matching
parsing_table, or the absent marker when no row matches; the lookup is
the only statement it runs. -/
theorem C7_resolver_semantics :
    ∀ (db : DB) (rid : String) (oc : Option Nat) (freshId : Nat),
      (get_table_name_for_resource (dbExec db) rid oc freshId).1
        = Except.ok ((db.tables_index.find? (fun p => p.1 = rid)).map
            (fun p => p.2))
      ∧ stmtText (Stmt.indexLookup rid)
          = "SELECT parsing_table FROM tables_index WHERE resource_id = %s"
      ∧ stmtParams (Stmt.indexLookup rid) = [Value.str rid]
      ∧ ((get_table_name_for_resource (dbExec db) rid oc freshId).2.filter
            (fun e => !isConnEvent e))
          = [Event.runStmtEv (oc.getD freshId) (Stmt.indexLookup rid)] := by
  intro db rid oc freshId
  refine ⟨get_table_name_semantics db rid oc freshId, rfl, rfl, ?_⟩
  cases oc with
  | none =>
    rw [get_table_name_events_owned]
    simp [isConnEvent]
  | some c =>
    rw [get_table_name_events_supplied]
    simp [isConnEvent]

/-- C8 counterexample: an execution that succeeds with one zero-column
row (possible in the store: a selection of no columns) makes fetchrow
return the absent marker rather than that row — Python's
`dict(row) if row else None` treats the empty row dict as falsy. -/
theorem C8_counterexample :
    (fun (_ : Nat) (_ : Stmt) =>
        (Except.ok [([] : Row)] : Except DbError (List Row))) 0
        (Stmt.indexLookup "r") = Except.ok [[]]
    ∧ (fetchrow (fun _ _ => Except.ok [[]]) (Stmt.indexLookup "r")
        (some 0) 0).1 = Except.ok none
    ∧ (Except.ok none : Except DbError (Option Row))
        ≠ Except.ok (some ([] : Row)) := by
  refine ⟨rfl, rfl, by simp⟩

/-- C8 (amended): when execution succeeds with zero rows fetchrow
returns the absent marker and raises no error; when it succeeds with at
least one row it returns the first row as a column mapping — provided
that row has at least one column; a zero-column first row is also mapped
to the absent marker (row truthiness). -/
theorem C8_fetchrow_absent_marker :
    ∀ (ex : Exec) (q : Stmt) (oc : Option Nat) (freshId : Nat) (r : Row)
      (rs : List Row),
      (ex (oc.getD freshId) q = Except.ok [] →
        (fetchrow ex q oc freshId).1 = Except.ok none)
      ∧ (ex (oc.getD freshId) q = Except.ok (r :: rs) → r ≠ [] →
        (fetchrow ex q oc freshId).1 = Except.ok (some r))
      ∧ (ex (oc.getD freshId) q = Except.ok ([] :: rs) →
        (fetchrow ex q oc freshId).1 = Except.ok none) := by
  intro ex q oc freshId r rs
  refine ⟨?_, ?_, ?_⟩
  · intro hx
    cases oc <;> simp_all [fetchrow, ensure_connection]
  · intro hx hr
    cases oc <;> simp_all [fetchrow, ensure_connection, List.isEmpty_iff]
  · intro hx
    cases oc <;> simp_all [fetchrow, ensure_connection]

/-- C8 witness: the three cases at concrete oracles — zero rows, one
one-column row, one zero-column row. -/
theorem C8_fetchrow_absent_marker_witness :
    (fetchrow (fun _ _ => Except.ok []) (Stmt.indexLookup "r") (some 0) 0).1
      = Except.ok none
    ∧ (fetchrow (fun _ _ => Except.ok [[("a", Value.nat 1)]])
        (Stmt.indexLookup "r") (some 0) 0).1
      = Except.ok (some [("a", Value.nat 1)])
    ∧ (fetchrow (fun _ _ => Except.ok [[]]) (Stmt.indexLookup "r")
        (some 0) 0).1 = Except.ok none :=
  ⟨(C8_fetchrow_absent_marker (fun _ _ => Except.ok []) (Stmt.indexLookup "r")
      (some 0) 0 [] []).1 rfl,
   (C8_fetchrow_absent_marker (fun _ _ => Except.ok [[("a", Value.nat 1)]])
      (Stmt.indexLookup "r") (some 0) 0 [("a", Value.nat 1)] []).2.1 rfl
      (by simp),
   (C8_fetchrow_absent_marker (fun _ _ => Except.ok [[]])
      (Stmt.indexLookup "r") (some 0) 0 [] []).2.2 rfl⟩

/-- C9: an index record whose parsing_table is the empty string is
treated as absent by the truthiness test: explore_resource returns the
zero-result shape, raises nothing, and issues no statement against any
data table. -/
theorem C9_empty_table_name_absent :
    ∀ (db : DB) (rid : String) (limit offset : Nat) (oc : Option Nat)
      (freshId : Nat),
      (db.tables_index.find? (fun p => p.1 = rid)).map (fun p => p.2)
          = some "" →
      (explore_resource (dbExec db) rid limit offset oc freshId).1
        = Except.ok { resource_id := rid, table_name := none, rows := [],
                      count := Value.nat 0, limit := limit, offset := offset }
      ∧ ∀ e ∈ (explore_resource (dbExec db) rid limit offset oc freshId).2,
          isTableQuery e = false := by
  intro db rid limit offset oc freshId hf
  have := explore_resource_empty_shape db rid limit offset oc freshId
    (Or.inr hf)
  exact ⟨this.1, this.2⟩

/-- C9 witness: a store mapping "r" to the empty string. -/
theorem C9_empty_table_name_absent_witness :
    (explore_resource (dbExec ⟨[("r", "")], []⟩) "r" 10 0 none 0).1
      = Except.ok { resource_id := "r", table_name := none, rows := [],
                    count := Value.nat 0, limit := 10, offset := 0 } :=
  (C9_empty_table_name_absent ⟨[("r", "")], []⟩ "r" 10 0 none 0 (by decide)).1

/-- C10: when the count statement's fetch yields no row at all, the
count defaults to 0 — no index or key error — and the full result
structure is still produced from the selection. -/
theorem C10_count_default_zero :
    ∀ (ex : Exec) (t : String) (limit offset c freshId : Nat) (rs : List Row),
      ex c (Stmt.countStmt (tableParts t)) = Except.ok [] →
      ex c (Stmt.selectStmt (tableParts t) limit offset) = Except.ok rs →
      (explore_table ex t limit offset (some c) freshId).1
        = Except.ok { rows := rs, count := Value.nat 0, limit := limit,
                      offset := offset } := by
  intro ex t limit offset c freshId rs h1 h2
  simp [explore_table, ensure_connection, closeEvents, h1, h2, extractCount]

/-- C10 witness: an oracle returning no rows for both statements. -/
theorem C10_count_default_zero_witness :
    (explore_table (fun _ _ => Except.ok []) "t" 5 0 (some 0) 0).1
      = Except.ok { rows := [], count := Value.nat 0, limit := 5,
                    offset := 0 } :=
  C10_count_default_zero (fun _ _ => Except.ok []) "t" 5 0 0 0 [] rfl rfl

end HydraDb
